import Mathlib

/-!
Shallow embedding of the nand2tetris Hack toolchain (Rust) for verification.

Namespace `Hack` embeds the assembler:
  * `src/projects/06/hack_assembler/src/symbol_table.rs`
  * `src/projects/06/hack_assembler/src/tokenizer.rs` (A-instruction extraction)
  * `src/projects/tools/hack_assembler/src/parser.rs` (pass-2 `convert_to_bin`)

Namespace `VM` embeds the VM translator:
  * `src/projects/tools/vm_translator/src/parser.rs`
  * `src/projects/tools/vm_translator/src/code_writer/*` and `translator.rs`

Rust `u16` values are modelled as `Nat`, with an explicit `% 65536` at the one
mutation site (`next_mem_allocation += 1`) where wrap-around could occur.
`HashMap`s that are only used through `contains_key` / `get` / `insert` are
modelled as association lists.  Strings are ASCII in this code base, so Rust
byte slicing coincides with `String.data` character operations.
-/

deriving instance DecidableEq for Except

namespace Hack

/-- Association-list lookup, the model of `HashMap::get`. -/
def alookup (l : List (String × Nat)) (k : String) : Option Nat :=
  match l with
  | [] => none
  | (k', v) :: rest => if k' = k then some v else alookup rest k

/-- Model of `HashMap::contains_key`. -/
def containsKey (l : List (String × Nat)) (k : String) : Bool :=
  (alookup l k).isSome

/-- Model of `HashMap::insert` (replaces an existing binding). -/
def ainsert (l : List (String × Nat)) (k : String) (v : Nat) : List (String × Nat) :=
  match l with
  | [] => [(k, v)]
  | (k', v') :: rest => if k' = k then (k, v) :: rest else (k', v') :: ainsert rest k v

/-- `START_ALIAS_ADDRESS: HackMemSize = 0x0010`. -/
def START_ALIAS_ADDRESS : Nat := 0x0010

def SCREEN_MEM : Nat := 0x4000

def KBD_MEM : Nat := 0x6000

/-- The 23 predefined aliases from `symbol_table.rs`. -/
def PREDEF_ALIASES : List (String × Nat) :=
  [("SP", 0x0), ("LCL", 0x1), ("ARG", 0x2), ("THIS", 0x3), ("THAT", 0x4),
   ("R0", 0x0), ("R1", 0x1), ("R2", 0x2), ("R3", 0x3), ("R4", 0x4),
   ("R5", 0x5), ("R6", 0x6), ("R7", 0x7), ("R8", 0x8), ("R9", 0x9),
   ("R10", 0xa), ("R11", 0xb), ("R12", 0xc), ("R13", 0xd), ("R14", 0xe),
   ("R15", 0xf), ("SCREEN", SCREEN_MEM), ("KBD", KBD_MEM)]

/-- `DEST_INSTR: [("M", 0b001), ("D", 0b010), ("A", 0b100)]`. -/
def DEST_INSTR : List (String × Nat) := [("M", 0b001), ("D", 0b010), ("A", 0b100)]

def JGT : Nat := 0b001
def JEQ : Nat := 0b010
def JLT : Nat := 0b100

/-- `JMP_INSTR` bit table from `symbol_table.rs`. -/
def JMP_INSTR : List (String × Nat) :=
  [("JGT", JGT), ("JEQ", JEQ), ("JLT", JLT), ("JGE", JGT ||| JEQ),
   ("JLE", JLT ||| JEQ), ("JNE", JLT ||| JGT), ("JMP", JLT ||| JGT ||| JEQ)]

def C6 : Nat := 0b0000001
def C5 : Nat := 0b0000010
def C4 : Nat := 0b0000100
def C3 : Nat := 0b0001000
def C2 : Nat := 0b0010000
def C1 : Nat := 0b0100000
def A_BIT : Nat := 0b1000000

/-- The 28-entry `COMP_INSTR` computation table from `symbol_table.rs`. -/
def COMP_INSTR : List (String × Nat) :=
  [("0", C5 ||| C3 ||| C1),
   ("1", C6 ||| C5 ||| C4 ||| C3 ||| C2 ||| C1),
   ("-1", C5 ||| C3 ||| C2 ||| C1),
   ("D", C4 ||| C3),
   ("A", C2 ||| C1),
   ("!D", C6 ||| C4 ||| C3),
   ("!A", C6 ||| C2 ||| C1),
   ("-D", C6 ||| C5 ||| C4 ||| C3),
   ("-A", C6 ||| C5 ||| C2 ||| C1),
   ("D+1", C6 ||| C5 ||| C4 ||| C3 ||| C2),
   ("A+1", C6 ||| C5 ||| C4 ||| C2 ||| C1),
   ("D-1", C5 ||| C4 ||| C3),
   ("A-1", C5 ||| C2 ||| C1),
   ("D+A", C5),
   ("D-A", C6 ||| C5 ||| C2),
   ("A-D", C6 ||| C5 ||| C4),
   ("D&A", 0),
   ("D|A", C6 ||| C4 ||| C2),
   ("M", A_BIT ||| C2 ||| C1),
   ("!M", A_BIT ||| C6 ||| C2 ||| C1),
   ("-M", A_BIT ||| C6 ||| C5 ||| C2 ||| C1),
   ("M+1", A_BIT ||| C6 ||| C5 ||| C4 ||| C2 ||| C1),
   ("M-1", A_BIT ||| C5 ||| C2 ||| C1),
   ("D+M", A_BIT ||| C5),
   ("D-M", A_BIT ||| C6 ||| C5 ||| C2),
   ("M-D", A_BIT ||| C6 ||| C5 ||| C4),
   ("D&M", A_BIT),
   ("D|M", A_BIT ||| C6 ||| C4 ||| C2)]

/-- `START_CMP_INSTR: u16 = 0b1110000000000000`. -/
def START_CMP_INSTR : Nat := 0b1110000000000000

/-- `SymbolTableError::AlreadySetErr`. -/
inductive SymbolTableError where
  | AlreadySetErr
deriving DecidableEq, Repr

/-- The mutable part of `SymbolTable` (the three instruction bit tables are
immutable and embedded as the fixed lists above). -/
structure SymbolTable where
  aliases : List (String × Nat)
  next_mem_allocation : Nat
  labels : List (String × Nat)
deriving DecidableEq, Repr

namespace SymbolTable

/-- `SymbolTable::new()`. -/
def new : SymbolTable :=
  { aliases := PREDEF_ALIASES
    next_mem_allocation := START_ALIAS_ADDRESS
    labels := [] }

/-- `add_alias`: error if the name is already an alias; otherwise bind it to
`next_mem_allocation` and increment the cursor (u16 arithmetic). Returns the
`Result` together with the post-state (the Rust method mutates `self`). -/
def add_alias (st : SymbolTable) (name : String) :
    Except SymbolTableError Nat × SymbolTable :=
  if containsKey st.aliases name then
    (.error .AlreadySetErr, st)
  else
    let location := st.next_mem_allocation
    let st' : SymbolTable :=
      { st with
        aliases := ainsert st.aliases name location
        next_mem_allocation := (location + 1) % 65536 }
    match alookup st.aliases name with
    | none => (.ok location, st')
    | some _ => (.error .AlreadySetErr, st')

/-- `get_addr`: pure lookup in the alias map. -/
def get_addr (st : SymbolTable) (name : String) : Option Nat :=
  alookup st.aliases name

/-- `add_label`: error if the name is already a label; otherwise record the
line number. Returns the `Result` together with the post-state. -/
def add_label (st : SymbolTable) (label : String) (line_no : Nat) :
    Except SymbolTableError Nat × SymbolTable :=
  if containsKey st.labels label then
    (.error .AlreadySetErr, st)
  else
    let st' : SymbolTable := { st with labels := ainsert st.labels label line_no }
    match alookup st.labels label with
    | none => (.ok line_no, st')
    | some _ => (.error .AlreadySetErr, st')

/-- `get_line_no`: pure lookup in the label map. -/
def get_line_no (st : SymbolTable) (label : String) : Option Nat :=
  alookup st.labels label

/-- `get_jmp_instr`: direct lookup in the jump bit table. -/
def get_jmp_instr (jmp_instr : String) : Option Nat :=
  alookup JMP_INSTR jmp_instr

/-- One character of `get_dest_instr`'s mapping step: lookup of the
single-character string in the `dest_instr` table. -/
def destBit (c : Char) : Option Nat :=
  alookup DEST_INSTR (String.mk [c])

/-- The `reduce` combinator inside `get_dest_instr`: both operands must be
`Some`, and the masks are OR-ed. -/
def destCombine (accum d : Option Nat) : Option Nat :=
  match accum, d with
  | none, _ => none
  | _, none => none
  | some a, some b => some (a ||| b)

/-- `get_dest_instr`: map each character through the dest table, then
`reduce` with the OR combinator; an empty string or an unknown character
yields `None`. -/
def get_dest_instr (dest_instr : String) : Option Nat :=
  match dest_instr.data.map destBit with
  | [] => none
  | b :: rest => rest.foldl destCombine b

/-- `get_comp_instr`: direct lookup in the computation bit table. -/
def get_comp_instr (comp_instr : String) : Option Nat :=
  alookup COMP_INSTR comp_instr

end SymbolTable

/-- `AInstruction` from `instructions/ainstruction.rs`. -/
inductive AInstruction where
  | RawAddr (addr : Nat)
  | Alias (name : String)
deriving DecidableEq, Repr

/-- `CInstruction` from `instructions/cinstruction.rs`. -/
structure CInstruction where
  dest : Option String
  comp : String
  jump : Option String
deriving DecidableEq, Repr

/-- `Token` from `tokenizer.rs`. -/
inductive Token where
  | Label (name : String)
  | AInstruction (a : AInstruction)
  | CInstruction (c : CInstruction)
deriving DecidableEq, Repr

/-- `TokenError` from `tokenizer.rs`.  The Rust errors carry a formatted
message naming the offending character and position; the payload here is the
offending character. -/
inductive TokenError where
  | UnclosedLabelError
  | EmptyAInstructionError
  | InvalidSymbolFirstChar (c : Char)
  | InvalidSymbolChar (c : Char)
  | UnexpectedCharacter (c : Char)
  | MissingCmpInstruction
deriving DecidableEq, Repr

/-- `is_valid_symbol`: ASCII alphabetic, digit, or one of `_ . $ :`.
(`Char.isAlpha`/`Char.isDigit` are exactly the ASCII ranges, matching the
Rust `is_ascii && (is_alphabetic || is_digit(10) || ...)` conjunction.) -/
def is_valid_symbol (c : Char) : Bool :=
  c.isAlpha || c.isDigit || c = '_' || c = '.' || c = '$' || c = ':'

/-- `is_valid_symbol_first_char`: a valid symbol character that is not a
digit. -/
def is_valid_symbol_first_char (c : Char) : Bool :=
  is_valid_symbol c && !c.isDigit

/-- One step of Rust's `str::parse::<u16>` digit loop. -/
def parseU16Digits (cs : List Char) (acc : Nat) : Option Nat :=
  match cs with
  | [] => some acc
  | c :: rest =>
    if c.isDigit then
      let acc' := acc * 10 + (c.toNat - 48)
      if acc' < 65536 then parseU16Digits rest acc' else none
    else none

/-- Model of Rust's `str::parse::<u16>`: an optional leading `+`, then at
least one decimal digit, with the value bounded by `u16::MAX`. -/
def parseU16 (s : String) : Option Nat :=
  let cs := match s.data with
    | '+' :: rest => rest
    | cs => cs
  match cs with
  | [] => none
  | _ => parseU16Digits cs 0

/-- `extract_a_instruction` from `tokenizer.rs` (lines 96-124).  `line` is the
comment-stripped, trimmed source line and `start_idx` the index just past the
`@` (the tokenizer dispatch always passes 1 for a trimmed line).  If the
remainder parses as a `u16` the token is `RawAddr`; otherwise the remainder is
validated as a symbol and emitted as `Alias`. -/
def extract_a_instruction (line : String) (start_idx : Nat) :
    Except TokenError (Option Token) :=
  let rem : String := ⟨line.data.drop start_idx⟩
  match parseU16 rem with
  | some addr => .ok (some (.AInstruction (.RawAddr addr)))
  | none =>
    if line.data.length ≤ start_idx then
      .error .EmptyAInstructionError
    else if !is_valid_symbol_first_char ((line.data.get? start_idx).getD ' ') then
      .error (.InvalidSymbolFirstChar ((line.data.get? start_idx).getD ' '))
    else
      match rem.data.find? (fun c => !is_valid_symbol c) with
      | some c => .error (.InvalidSymbolChar c)
      | none => .ok (some (.AInstruction (.Alias rem)))

/-- The loop body of `bin_string`: prepend the low bit's character and shift
right, `n` times. -/
def bin_string_aux : Nat → Nat → List Char → List Char
  | _, 0, acc => acc
  | val, n + 1, acc =>
    bin_string_aux (val / 2) n ((if val % 2 = 0 then '0' else '1') :: acc)

/-- `bin_string` from the tools assembler `parser.rs`: 16 binary characters,
most significant bit first. -/
def bin_string (val : Nat) : String :=
  ⟨bin_string_aux val 16 []⟩

/-- `ParseError` from the tools assembler `parser.rs` (I/O omitted). -/
inductive ParseError where
  | TokenError (e : TokenError)
  | SymbolTableError (e : SymbolTableError)
  | NonCompilableToken (t : Token)
  | AliasNotFound (name : String)
deriving DecidableEq, Repr

/-- `From<CInstWithSymbols> for u16`: the 16-bit C-instruction encoding
`START_CMP_INSTR | comp | dest | jump`, with each missing or unknown
mnemonic contributing `unwrap_or_default()` zero bits. -/
def cInstWithSymbols (cinstr : CInstruction) : Nat :=
  let comp := SymbolTable.get_comp_instr cinstr.comp |>.getD 0
  let dest := SymbolTable.get_dest_instr (cinstr.dest.getD "") |>.getD 0
  let jump := SymbolTable.get_jmp_instr (cinstr.jump.getD "") |>.getD 0
  START_CMP_INSTR ||| comp ||| dest ||| jump

/-- The per-token body of pass 2 (`convert_to_bin`, tools `parser.rs` lines
89-106): a raw address is emitted as is; an alias is resolved through
`get_addr`, then `get_line_no`, and otherwise freshly allocated with
`add_alias`; a C-instruction is encoded; any other token is
`NonCompilableToken`. -/
def convertTokenStep (symbols : SymbolTable) (code : Token) :
    Except ParseError (Nat × SymbolTable) :=
  match code with
  | .AInstruction a =>
    match a with
    | .RawAddr addr => .ok (addr, symbols)
    | .Alias alias' =>
      match symbols.get_addr alias' with
      | some addr => .ok (addr, symbols)
      | none =>
        match symbols.get_line_no alias' with
        | some addr => .ok (addr, symbols)
        | none =>
          match symbols.add_alias alias' with
          | (.ok addr, symbols') => .ok (addr, symbols')
          | (.error e, _) => .error (ParseError.SymbolTableError e)
  | .CInstruction cinstr => .ok (cInstWithSymbols cinstr, symbols)
  | token => .error (.NonCompilableToken token)

/-- `convert_to_bin`: pass 2 over the instruction tokens recorded by pass 1,
emitting one `bin_string` line per token and threading the symbol table
through the fresh-variable allocations. -/
def convert_to_bin (symbols : SymbolTable) (tokens : List Token) :
    Except ParseError (List String) :=
  match tokens with
  | [] => .ok []
  | t :: rest => do
    let (v, symbols') ← convertTokenStep symbols t
    let lines ← convert_to_bin symbols' rest
    .ok (bin_string v :: lines)

/-- A symbol-table operation, for stating invariants over arbitrary operation
sequences (lookups do not change the state). -/
inductive STOp where
  | addAlias (name : String)
  | addLabel (name : String) (line_no : Nat)
  | getAddr (name : String)
  | getLineNo (name : String)
deriving DecidableEq, Repr

/-- The state effect of one symbol-table operation. -/
def applyOp (st : SymbolTable) : STOp → SymbolTable
  | .addAlias n => (st.add_alias n).2
  | .addLabel n l => (st.add_label n l).2
  | .getAddr _ => st
  | .getLineNo _ => st

/-- Run a sequence of symbol-table operations. -/
def runOps (st : SymbolTable) (ops : List STOp) : SymbolTable :=
  ops.foldl applyOp st

/-- The number of successful `add_alias` calls in a run (an `add_alias` of a
previously-undeclared name succeeds; everything else allocates nothing). -/
def succCount (st : SymbolTable) : List STOp → Nat
  | [] => 0
  | op :: rest =>
    (match op with
     | .addAlias n => if containsKey st.aliases n then 0 else 1
     | _ => 0) + succCount (applyOp st op) rest

end Hack

namespace VM

/-- `Arithmetic` from the VM `parser.rs`. -/
inductive Arithmetic where
  | Add | Sub | Neg | Eq | Gt | Lt | And | Or | Not
deriving DecidableEq, Repr

/-- `Goto` from the VM `parser.rs`. -/
inductive Goto where
  | Direct | Conditional
deriving DecidableEq, Repr

/-- `Flow`: the union of the variants used across the crate — `Label` and
`Goto` are produced by `parser.rs`, while `Call` and `Return` are constructed
by `writer.rs` / matched by `flow.rs`. -/
inductive Flow where
  | Label (name : String)
  | Goto (g : Goto) (label : String)
  | Call (name : String) (args : Nat)
  | Return
deriving DecidableEq, Repr

/-- `Marker` from `marker.rs` / `writer.rs`. -/
inductive Marker where
  | Label (name : String)
  | Function (name : String) (local_count : Nat)
deriving DecidableEq, Repr

/-- `PushSegment` from the VM `parser.rs`. -/
inductive PushSegment where
  | Argument | Local | Static | This | That | Pointer | Temp | Constant
deriving DecidableEq, Repr

/-- `PopSegment` from the VM `parser.rs`. -/
inductive PopSegment where
  | Argument | Local | Static | This | That | Pointer | Temp
deriving DecidableEq, Repr

/-- `Segment`, the wrapper enum over push/pop segments. -/
inductive Segment where
  | PushSeg (p : PushSegment)
  | PopSeg (p : PopSegment)
deriving DecidableEq, Repr

/-- `ParsedCmd`: the union of the variants used across the crate. `parser.rs`
produces `Arithmetic`, `Push`, `Pop`, `Flow` (label/goto), `Terminate` and
`Noop`; `writer.rs` additionally matches `PushConstant` (an `i16` per the
spec) and `Marker`. -/
inductive ParsedCmd where
  | Arithmetic (a : Arithmetic)
  | PushConstant (value : Int)
  | Push (segment : PushSegment) (idx : Nat)
  | Pop (segment : PopSegment) (idx : Nat)
  | Flow (f : Flow)
  | Marker (m : Marker)
  | Terminate
  | Noop
deriving DecidableEq, Repr

/-- `Command`: the original source line paired with its parsed command. -/
structure Command where
  original : String
  parsed : ParsedCmd
deriving DecidableEq, Repr

/-- `ParseError` from the VM `parser.rs` (I/O omitted; the
`InvalidMemoryLocation` payload is Rust's `ParseIntError`). -/
inductive ParseError where
  | UnknownCommandError (s : String)
  | UnknownSegmentError (s : String)
  | InvalidMemoryLocation
deriving DecidableEq, Repr

/-- Drop everything from the first `//` on (`value.find("//")`). -/
def stripCommentChars : List Char → List Char
  | [] => []
  | '/' :: '/' :: _ => []
  | c :: rest => c :: stripCommentChars rest

/-- Comment stripping on strings. -/
def stripComment (s : String) : String :=
  ⟨stripCommentChars s.data⟩

/-- Helper for `split_ascii_whitespace`: split on whitespace runs, emitting no
empty tokens. -/
def splitWsGo : List Char → List Char → List String
  | [], cur => if cur.isEmpty then [] else [⟨cur.reverse⟩]
  | c :: rest, cur =>
    if c.isWhitespace then
      if cur.isEmpty then splitWsGo rest []
      else (⟨cur.reverse⟩ : String) :: splitWsGo rest []
    else splitWsGo rest (c :: cur)

/-- Model of `str::split_ascii_whitespace` collected to a `Vec`. -/
def split_ascii_whitespace (s : String) : List String :=
  splitWsGo s.data []

/-- The `STR_ARITHMETIC` phf map. -/
def STR_ARITHMETIC (s : String) : Option Arithmetic :=
  if s = "add" then some .Add
  else if s = "sub" then some .Sub
  else if s = "neg" then some .Neg
  else if s = "eq" then some .Eq
  else if s = "gt" then some .Gt
  else if s = "lt" then some .Lt
  else if s = "and" then some .And
  else if s = "or" then some .Or
  else if s = "not" then some .Not
  else none

/-- The `STR_PUSH_SEGMENT` phf map. -/
def STR_PUSH_SEGMENT (s : String) : Option PushSegment :=
  if s = "argument" then some .Argument
  else if s = "local" then some .Local
  else if s = "static" then some .Static
  else if s = "this" then some .This
  else if s = "that" then some .That
  else if s = "pointer" then some .Pointer
  else if s = "temp" then some .Temp
  else if s = "constant" then some .Constant
  else none

/-- The `STR_POP_SEGMENT` phf map (no `constant`). -/
def STR_POP_SEGMENT (s : String) : Option PopSegment :=
  if s = "argument" then some .Argument
  else if s = "local" then some .Local
  else if s = "static" then some .Static
  else if s = "this" then some .This
  else if s = "that" then some .That
  else if s = "pointer" then some .Pointer
  else if s = "temp" then some .Temp
  else none

/-- The match over the whitespace-split tokens inside
`TryFrom<&str> for ParsedCmd` (`parser.rs` lines 176-211).  In the three-token
push/pop arm the index is parsed as a `u16` BEFORE the segment is looked up,
for every segment including `constant`. -/
def parsedCmdOfTokens (tokens : List String) : Except ParseError ParsedCmd :=
  match tokens with
  | [] => .ok .Noop
  | [arithmetic_cmd] =>
    match STR_ARITHMETIC arithmetic_cmd with
    | some cmd => .ok (.Arithmetic cmd)
    | none => .error (.UnknownCommandError arithmetic_cmd)
  | ["label", label] => .ok (.Flow (.Label label))
  | ["if-goto", label] => .ok (.Flow (.Goto .Conditional label))
  | ["goto", label] => .ok (.Flow (.Goto .Direct label))
  | [op, segment, location] =>
    if op = "push" || op = "pop" then
      match Hack.parseU16 location with
      | none => .error .InvalidMemoryLocation
      | some loc =>
        if op = "push" then
          match STR_PUSH_SEGMENT segment with
          | some seg => .ok (.Push seg loc)
          | none => .error (.UnknownSegmentError segment)
        else
          match STR_POP_SEGMENT segment with
          | some seg => .ok (.Pop seg loc)
          | none => .error (.UnknownSegmentError segment)
    else .error (.UnknownCommandError (String.intercalate " " tokens))
  | toks => .error (.UnknownCommandError (String.intercalate " " toks))

/-- `TryFrom<&str> for ParsedCmd`: strip the comment, split on ASCII
whitespace, and match the token shape. -/
def parsedCmdOfString (value : String) : Except ParseError ParsedCmd :=
  parsedCmdOfTokens (split_ascii_whitespace (stripComment value))

/-- ASCII `to_uppercase`. -/
def asciiUpper (s : String) : String :=
  ⟨s.data.map Char.toUpper⟩

/-- `LabelGenerator` from `label_manager/label_generator.rs`.  The Rust field
`prefix` is named `pfx` here. -/
structure LabelGenerator where
  pfx : String
  id : Nat
  label_idx : List (String × Nat)
  last : String
deriving DecidableEq, Repr

namespace LabelGenerator

/-- `LabelGenerator::new`: uppercases the supplied prefix string. -/
def new (p : String) : LabelGenerator :=
  { pfx := asciiUpper p, id := 0, label_idx := [], last := "" }

/-- `create(name)`: `prefix.name`, no uniqueness. -/
def create (g : LabelGenerator) (name : String) : String :=
  g.pfx ++ "." ++ name

/-- `create_unique(name)`: `prefix.name.N` with a per-name counter (a `u8`
in the source). -/
def create_unique (g : LabelGenerator) (name : String) : String × LabelGenerator :=
  let label := g.create name
  let id := (Hack.alookup g.label_idx label).getD 0
  let id' := (id + 1) % 256
  let last := label ++ "." ++ toString id'
  (last, { g with label_idx := Hack.ainsert g.label_idx label id', last := last })

/-- `generate()`: increment the `u16` counter and create `prefix.N`. -/
def generate (g : LabelGenerator) : String × LabelGenerator :=
  let id' := (g.id + 1) % 65536
  let last := g.create (toString id')
  (last, { g with id := id', last := last })

end LabelGenerator

/-- `LabelManager` from `label_manager/manager.rs`: a stack of generators
(the top of the stack is the END of the vector, as in the Rust `Vec`). -/
structure LabelManager where
  generators : List LabelGenerator
deriving DecidableEq, Repr

/-- Helper: apply `generate_label` to the LAST generator of the stack
(`generators.last_mut()`), returning `String::new()` for an empty stack. -/
def genLabelLast : List LabelGenerator → String → Bool → String × List LabelGenerator
  | [], _, _ => ("", [])
  | [g], label, unique =>
    if unique then
      let (s, g') := g.create_unique label
      (s, [g'])
    else (g.create label, [g])
  | g :: g' :: rest, label, unique =>
    let (s, rest') := genLabelLast (g' :: rest) label unique
    (s, g :: rest')

namespace LabelManager

/-- `LabelManager::new(filename)`. -/
def new (filename : String) : LabelManager :=
  ⟨[LabelGenerator.new filename]⟩

/-- `set_filename`: reset to a single file-level generator. -/
def set_filename (_lm : LabelManager) (filename : String) : LabelManager :=
  ⟨[LabelGenerator.new filename]⟩

/-- `start_function`: push a generator whose prefix extends the top
generator's prefix with `.name$`. -/
def start_function (lm : LabelManager) (function_name : String) : LabelManager :=
  let last_label := (lm.generators.getLast?).map (fun g => g.pfx) |>.getD ""
  ⟨lm.generators ++ [LabelGenerator.new (last_label ++ "." ++ function_name ++ "$")]⟩

/-- `end_function`: pop the top generator. -/
def end_function (lm : LabelManager) : LabelManager :=
  ⟨lm.generators.dropLast⟩

/-- `generate_static`: counter-based label from the BOTTOM (file-level)
generator (`generators.first_mut()`). -/
def generate_static (lm : LabelManager) : String × LabelManager :=
  match lm.generators with
  | [] => ("", ⟨[]⟩)
  | g :: rest =>
    let (s, g') := g.generate
    (s, ⟨g' :: rest⟩)

/-- `generate_label(label, unique)`: from the top generator. -/
def generate_label (lm : LabelManager) (label : String) (unique : Bool) :
    String × LabelManager :=
  let (s, gens) := genLabelLast lm.generators label unique
  (s, ⟨gens⟩)

end LabelManager

/-- `RegMgrError` from `reg_mgr.rs`. -/
inductive RegMgrError where
  | InvalidRange (s : String)
  | NoFreeTmpSpace
deriving DecidableEq, Repr

/-- `RegMgr`: the register names with their `Rc` strong counts (a count of 1
means only the manager holds the handle, i.e. the register is free; an
outstanding lease raises the count to 2). -/
structure RegMgr where
  registers : List (String × Nat)
deriving DecidableEq, Repr

/-- Lease the first register whose strong count is `< 2`, bumping its count. -/
def leaseFirst : List (String × Nat) → Option (String × List (String × Nat))
  | [] => none
  | (n, c) :: rest =>
    if c < 2 then some (n, (n, c + 1) :: rest)
    else (leaseFirst rest).map (fun p => (p.1, (n, c) :: p.2))

namespace RegMgr

/-- `RegMgr::new(start, end)`: registers `R{start}..=R{end}`, all free. -/
def new (start stop : Nat) : Except RegMgrError RegMgr :=
  if start > stop then
    .error (.InvalidRange (toString start ++ ":" ++ toString stop))
  else
    .ok ⟨(List.range (stop + 1 - start)).map (fun i => ("R" ++ toString (start + i), 1))⟩

/-- `next()`: the first handle with no outstanding clones, or
`NoFreeTmpSpace`.  Returns the leased register's name together with the
manager state in which the lease is outstanding. -/
def next (m : RegMgr) : Except RegMgrError (String × RegMgr) :=
  match leaseFirst m.registers with
  | some (n, regs) => .ok (n, ⟨regs⟩)
  | none => .error .NoFreeTmpSpace

end RegMgr

/-- `set_alias` from `register.rs`: `@alias`. -/
def set_alias (alias' : String) : List String :=
  ["@" ++ alias']

/-- `set_a_reg_to_pointer`: `A=M`. -/
def set_a_reg_to_pointer : List String :=
  ["A=M"]

/-- `set_a_reg_to_alias`: `@alias` then `A=M`. -/
def set_a_reg_to_alias (alias' : String) : List String :=
  set_alias alias' ++ set_a_reg_to_pointer

/-- `set_d_reg_to_mem`: `D=M`. -/
def set_d_reg_to_mem : List String :=
  ["D=M"]

/-- `set_mem_to_d_reg`: `M=D`. -/
def set_mem_to_d_reg : List String :=
  ["M=D"]

/-- `set_d_reg_to_a_reg`: `D=A`. -/
def set_d_reg_to_a_reg : List String :=
  ["D=A"]

/-- `set_a_reg_to_d_reg`: `A=D` (imported by `memory.rs`). -/
def set_a_reg_to_d_reg : List String :=
  ["A=D"]

/-- `set_a_reg_to_constant` (`i16` argument): `@value`. -/
def set_a_reg_to_constant (value : Int) : List String :=
  ["@" ++ toString value]

/-- `set_d_reg_to_constant`: special-cased for 0, 1 and -1; otherwise load
the constant through the A register. -/
def set_d_reg_to_constant (value : Int) : List String :=
  if value = 0 then ["D=0"]
  else if value = 1 then ["D=1"]
  else if value = -1 then ["D=-1"]
  else set_a_reg_to_constant value ++ set_d_reg_to_a_reg

/-- `set_d_reg_to_alias(alias, relative)`: `D ← M[alias] (+ relative)`,
with single-instruction forms for relative = ±1 (the `_` arm of the Rust
match covers both `None` and `Some(0)`). -/
def set_d_reg_to_alias (alias' : String) (relative : Option Int) : List String :=
  match relative with
  | some idx =>
    if idx = -1 then set_alias alias' ++ ["D=M-1"]
    else if idx = 1 then set_alias alias' ++ ["D=M+1"]
    else if idx ≠ 0 then
      (set_alias alias' ++ set_d_reg_to_mem) ++ set_a_reg_to_constant (Int.natAbs idx) ++
        (if idx > 0 then ["D=D+A"] else ["D=D-A"])
    else set_alias alias' ++ set_d_reg_to_mem
  | none => set_alias alias' ++ set_d_reg_to_mem

/-- `SEGMENT_STACK`. -/
def SEGMENT_STACK : String := "SP"

/-- `dec_stack_pointer`: `@SP; M=M-1`. -/
def dec_stack_pointer : List String :=
  ["@SP", "M=M-1"]

/-- `inc_stack_pointer`: `@SP; M=M+1`. -/
def inc_stack_pointer : List String :=
  ["@SP", "M=M+1"]

/-- `push_d_reg_to_stack`: `*SP ← D; SP++`. -/
def push_d_reg_to_stack : List String :=
  set_a_reg_to_alias SEGMENT_STACK ++ ["M=D"] ++ inc_stack_pointer

/-- `pop_stack_to_d_reg`: `SP--; D ← *SP`. -/
def pop_stack_to_d_reg : List String :=
  dec_stack_pointer ++ set_a_reg_to_pointer ++ set_d_reg_to_mem

/-- `pop_and_prep_stack`: pop into D and point A at the new top of stack. -/
def pop_and_prep_stack : List String :=
  pop_stack_to_d_reg ++ dec_stack_pointer ++ set_a_reg_to_pointer

/-- `TMP_BASE_ADDR: u16 = 5`. -/
def TMP_BASE_ADDR : Nat := 5

/-- `AVAILABLE_TMP_BLOCKS: u16 = 8`. -/
def AVAILABLE_TMP_BLOCKS : Nat := 8

/-- The `PUSH_MEM_MAP` segment-base table from `memory.rs`. -/
def PUSH_MEM_MAP : PushSegment → Option String
  | .Local => some "LCL"
  | .Argument => some "ARG"
  | .This => some "THIS"
  | .That => some "THAT"
  | .Constant => some "SP"
  | _ => none

/-- The `POP_MEM_MAP` segment-base table from `memory.rs`. -/
def POP_MEM_MAP : PopSegment → Option String
  | .Local => some "LCL"
  | .Argument => some "ARG"
  | .This => some "THIS"
  | .That => some "THAT"
  | _ => none

/-- `get_segment_alias`: table lookup (the Rust `unwrap` is only reachable
for mapped segments; unmapped segments are handled before the lookup). -/
def get_segment_alias : Segment → String
  | .PushSeg p => (PUSH_MEM_MAP p).getD ""
  | .PopSeg p => (POP_MEM_MAP p).getD ""

/-- `MemoryError` from `memory.rs`. -/
inductive MemoryError where
  | TempError (e : RegMgrError)
  | OutOfBoundsPushError (idx : Nat) (segment : PushSegment)
  | OutOfBoundsPopError (idx : Nat) (segment : PopSegment)
deriving DecidableEq, Repr

/-- `MemCmdWriter`: holds the uppercased per-file namespace (the register
manager handle it also stores is passed explicitly to `pop_stack_to` here).
The Rust field is called `namespace`, a Lean keyword. -/
structure MemCmdWriter where
  ns : String
deriving DecidableEq, Repr

/-- `MemCmdWriter::new`: uppercases the namespace. -/
def MemCmdWriter.new (ns : String) : MemCmdWriter :=
  ⟨asciiUpper ns⟩

/-- `set_d_reg_to_segment_idx`: `D ← segment base (+ idx)` (a method on
`MemCmdWriter` in `memory.rs` that does not use `self`, imported as a free
function by `flow.rs`). -/
def set_d_reg_to_segment_idx (segment : Segment) (idx : Nat) : List String :=
  set_d_reg_to_alias (get_segment_alias segment) none ++
    (if idx > 0 then set_a_reg_to_constant idx ++ ["D=D+A"] else [])

/-- `copy_d_reg_to_mem`: `M[reg] ← D`. -/
def copy_d_reg_to_mem (reg : String) : List String :=
  set_a_reg_to_alias reg ++ set_mem_to_d_reg

/-- `MemCmdWriter::push_to_stack` (`memory.rs` lines 68-109): lower
`push segment idx`, ending with a push of D; `Temp` is bounds-checked
against `[0, 7]` and addressed at `5 + idx`, `Pointer` against `{0, 1}`
(0 ↦ THIS, 1 ↦ THAT). -/
def MemCmdWriter.push_to_stack (w : MemCmdWriter) (segment : PushSegment)
    (idx : Nat) : Except MemoryError (List String) :=
  (match segment with
   | .Constant => Except.ok (set_d_reg_to_constant idx)
   | .Static => Except.ok (set_d_reg_to_alias (w.ns ++ "." ++ toString idx) none)
   | .Temp =>
     if idx > AVAILABLE_TMP_BLOCKS - 1 then
       Except.error (MemoryError.OutOfBoundsPushError idx .Temp)
     else
       Except.ok (set_a_reg_to_constant (TMP_BASE_ADDR + idx) ++ set_d_reg_to_mem)
   | .Pointer =>
     if idx > 1 then Except.error (MemoryError.OutOfBoundsPushError idx .Pointer)
     else
       let segment : Segment :=
         if idx = 0 then .PushSeg .This else .PushSeg .That
       Except.ok (set_d_reg_to_alias (get_segment_alias segment) none)
   | seg =>
     Except.ok (set_d_reg_to_segment_idx (.PushSeg seg) idx ++
       set_a_reg_to_d_reg ++ set_d_reg_to_mem)
  ).map (fun asm => asm ++ push_d_reg_to_stack)

/-- `MemCmdWriter::pop_stack_to` (`memory.rs` lines 111-158): a scratch
register is leased from the register manager FIRST, for every segment and
index; then `pop segment idx` is lowered (the lease is only referenced in
the generic-segment arm and is released when the function returns). -/
def MemCmdWriter.pop_stack_to (w : MemCmdWriter) (gen_purp_reg : RegMgr)
    (segment : PopSegment) (idx : Nat) : Except MemoryError (List String) := do
  let (tmp, _) ←
    match gen_purp_reg.next with
    | .ok p => Except.ok p
    | .error e => Except.error (MemoryError.TempError e)
  match segment with
  | .Static =>
    Except.ok (pop_stack_to_d_reg ++
      set_alias (w.ns ++ "." ++ toString idx) ++ set_mem_to_d_reg)
  | .Temp =>
    if idx > AVAILABLE_TMP_BLOCKS - 1 then
      Except.error (MemoryError.OutOfBoundsPopError idx .Temp)
    else
      Except.ok (pop_stack_to_d_reg ++
        set_a_reg_to_constant (TMP_BASE_ADDR + idx) ++ set_mem_to_d_reg)
  | .Pointer =>
    if idx > 1 then Except.error (MemoryError.OutOfBoundsPopError idx .Pointer)
    else
      let segment : Segment :=
        if idx = 0 then .PushSeg .This else .PushSeg .That
      Except.ok (pop_stack_to_d_reg ++
        set_alias (get_segment_alias segment) ++ set_mem_to_d_reg)
  | seg =>
    Except.ok (set_d_reg_to_segment_idx (.PopSeg seg) idx ++
      set_alias tmp ++ set_mem_to_d_reg ++ pop_stack_to_d_reg ++
      copy_d_reg_to_mem tmp)

/-- `JmpCmd` from `flow.rs`. -/
inductive JmpCmd where
  | Jeq | Jlt | Jgt | Jmp
deriving DecidableEq, Repr

/-- `Display for JmpCmd`. -/
def JmpCmd.str : JmpCmd → String
  | .Jeq => "JEQ"
  | .Jlt => "JLT"
  | .Jgt => "JGT"
  | .Jmp => "JMP"

/-- `CmpVal` from `register.rs`. -/
inductive CmpVal where
  | D | Zero
deriving DecidableEq, Repr

/-- `Display for CmpVal`. -/
def CmpVal.str : CmpVal → String
  | .D => "D"
  | .Zero => "0"

/-- `jmp`: `{cmp_val};{jmp_cmd}`. -/
def jmp (jmp_cmd : JmpCmd) (cmp_val : CmpVal) : List String :=
  [cmp_val.str ++ ";" ++ jmp_cmd.str]

/-- `label` from `marker.rs`: the single line `(label)`. -/
def label (l : String) : List String :=
  ["(" ++ l ++ ")"]

/-- `initialize_locals` from `marker.rs` (name shortened): push `D=0`
`local_count` times. -/
def init_locals (local_count : Nat) : List String :=
  if local_count > 0 then
    (List.range local_count).flatMap
      (fun _ => set_d_reg_to_constant 0 ++ push_d_reg_to_stack)
  else []

/-- `function` from `marker.rs`: `(name)` then the locals prologue. -/
def functionCmd (name : String) (local_count : Nat) : List String :=
  label name ++ init_locals local_count

/-- `marker` from `marker.rs` (lines 11-24): a VM `label` emits the raw
`(l)` line and leaves the label manager untouched; a `function` emits its
entry label and locals prologue and opens a label scope. -/
def marker (marker_cmd : Marker) (label_manager : LabelManager) :
    List String × LabelManager :=
  match marker_cmd with
  | .Label l => (label l, label_manager)
  | .Function name local_count =>
    let ret := functionCmd name local_count
    (ret, label_manager.start_function name)

/-- `FlowError` from `flow.rs`. -/
inductive FlowError where
  | RegMgr (e : RegMgrError)
  | Memory (e : MemoryError)
deriving DecidableEq, Repr

/-- `goto` from `flow.rs` (lines 67-69): `@label` then `0;JMP`, on the raw
label string. -/
def goto (l : String) : List String :=
  set_alias l ++ jmp .Jmp .Zero

/-- `if_goto`: pop the condition into D, then jump on `D;JGT` or `D;JLT`
(nonzero jump). -/
def if_goto (l : String) : List String :=
  pop_stack_to_d_reg ++ set_alias l ++ jmp .Jgt .D ++ jmp .Jlt .D

/-- `generate_retun` [sic] from `flow.rs`: push the return label's address. -/
def generate_retun (l : String) : List String :=
  set_alias l ++ set_d_reg_to_a_reg ++ push_d_reg_to_stack

/-- The free `set_d_reg_to_segment_idx` imported by `flow.rs` from the
memory module.  Modelled from the spec: the free function's body is not in
`src/` (`memory.rs` only has a method of the same name used on the push/pop
path); per the spec's `return` lowering (`SP ← ARG + 1`, restored as single
`D=M+1`-style instructions where possible) and the writer's `Return`/`Call`
unit tests it is the relative form `set_d_reg_to_alias(base, Some(idx))`. -/
def flow_set_d_reg_to_segment_idx (segment : Segment) (idx : Nat) : List String :=
  set_d_reg_to_alias (get_segment_alias segment) (some idx)

/-- `save_local_frame`: push LCL, ARG, THIS, THAT. -/
def save_local_frame : List String :=
  flow_set_d_reg_to_segment_idx (.PushSeg .Local) 0 ++ push_d_reg_to_stack ++
  flow_set_d_reg_to_segment_idx (.PushSeg .Argument) 0 ++ push_d_reg_to_stack ++
  flow_set_d_reg_to_segment_idx (.PushSeg .This) 0 ++ push_d_reg_to_stack ++
  flow_set_d_reg_to_segment_idx (.PushSeg .That) 0 ++ push_d_reg_to_stack

/-- `reset_args_for_call`: `ARG ← SP - 5 - arg_count`. -/
def reset_args_for_call (arg_count : Nat) : List String :=
  set_d_reg_to_alias SEGMENT_STACK (some (-(5 + (arg_count : Int)))) ++
  set_alias (get_segment_alias (.PushSeg .Argument)) ++ set_mem_to_d_reg

/-- `call` from `flow.rs`: generate the unique return label
`prefix.name$ret.N`, push it, save the caller frame, reset ARG, set LCL,
jump, and place the return label. -/
def call (name : String) (arg_count : Nat) (label_manager : LabelManager) :
    List String × LabelManager :=
  let (ret_label, lm') := label_manager.generate_label (name ++ "$ret") true
  (generate_retun ret_label ++
   save_local_frame ++
   reset_args_for_call arg_count ++
   set_d_reg_to_alias SEGMENT_STACK none ++
   set_alias (get_segment_alias (.PushSeg .Local)) ++
   set_mem_to_d_reg ++
   goto name ++
   label ret_label, lm')

/-- `set_segment_addr`: restore a frame slot from `*(reg - steps_back)`,
with the one-instruction `A=M-1` special case for `steps_back = 1`. -/
def set_segment_addr (reg : String) (steps_back : Nat) (segment : Segment) :
    List String :=
  (if steps_back = 1 then set_alias reg ++ ["A=M-1"]
   else
     set_d_reg_to_alias reg none ++ set_a_reg_to_constant steps_back ++
       ["A=D-A"]) ++
  set_d_reg_to_mem ++ set_alias (get_segment_alias segment) ++ set_mem_to_d_reg

/-- `return_cmd` from `flow.rs`: lease two scratch registers (frame pointer
and saved return address), move the result to `*ARG`, reset SP, restore
THAT/THIS/ARG/LCL from `LCL-1..LCL-4`, and jump to the saved address. -/
def return_cmd (gen_purp_reg : RegMgr) (mem_cmd_writer : MemCmdWriter) :
    Except FlowError (List String) := do
  let (lcl, r1) ←
    match gen_purp_reg.next with
    | .ok p => Except.ok p
    | .error e => Except.error (FlowError.RegMgr e)
  let (ret_add, r2) ←
    match r1.next with
    | .ok p => Except.ok p
    | .error e => Except.error (FlowError.RegMgr e)
  let popToArg ←
    match mem_cmd_writer.pop_stack_to r2 .Argument 0 with
    | .ok asm => Except.ok asm
    | .error e => Except.error (FlowError.Memory e)
  Except.ok
    (flow_set_d_reg_to_segment_idx (.PushSeg .Local) 0 ++
     set_alias lcl ++ set_mem_to_d_reg ++
     set_a_reg_to_constant 5 ++ ["A=D-A"] ++ set_d_reg_to_mem ++
     set_alias ret_add ++ set_mem_to_d_reg ++
     popToArg ++
     flow_set_d_reg_to_segment_idx (.PushSeg .Argument) 1 ++
     set_alias SEGMENT_STACK ++ set_mem_to_d_reg ++
     set_segment_addr lcl 1 (.PushSeg .That) ++
     set_segment_addr lcl 2 (.PushSeg .This) ++
     set_segment_addr lcl 3 (.PushSeg .Argument) ++
     set_segment_addr lcl 4 (.PushSeg .Local) ++
     set_a_reg_to_alias ret_add ++
     jmp .Jmp .Zero)

/-- The `flow` dispatcher from `flow.rs` (the closure): goto and if-goto on
the raw label, call, and return (which closes the label scope first).
`flow.rs` has no arm for the parser's `Flow::Label` variant; it is modelled
by the identical raw-label emission of `marker.rs`. -/
def flow (gen_purp_reg : RegMgr) (mem_cmd_writer : MemCmdWriter)
    (flow_cmd : Flow) (label_manager : LabelManager) :
    Except FlowError (List String × LabelManager) :=
  match flow_cmd with
  | .Goto .Direct l => .ok (goto l, label_manager)
  | .Goto .Conditional l => .ok (if_goto l, label_manager)
  | .Call name args => .ok (call name args label_manager)
  | .Return =>
    let lm' := label_manager.end_function
    (return_cmd gen_purp_reg mem_cmd_writer).map (fun asm => (asm, lm'))
  | .Label l => .ok (label l, label_manager)

/-- `Cmp` from `arithmetic.rs`. -/
inductive Cmp where
  | CEq | CLt | CGt
deriving DecidableEq, Repr

/-- `bin_math_to_asm`: pop, `M = M op D`, SP++. -/
def bin_math_to_asm (symbol : String) : List String :=
  pop_and_prep_stack ++ ["M=M" ++ symbol ++ "D"] ++ inc_stack_pointer

/-- `uni_math_to_asm`: SP--, `M = op M`, SP++. -/
def uni_math_to_asm (symbol : String) : List String :=
  dec_stack_pointer ++ set_a_reg_to_pointer ++ ["M=" ++ symbol ++ "M"] ++
    inc_stack_pointer

/-- `cmp_math_to_asm`: `D = M - D`, jump to a fresh true label, `D=0`, jump
to a fresh end label, true writes `D=-1`, end pushes D.  The two labels come
from the label generator (the writer passes its label manager; the labels
are drawn counter-based as `generate_static` does). -/
def cmp_math_to_asm (cmp : Cmp) (label_manager : LabelManager) :
    List String × LabelManager :=
  let jmp_cmd : JmpCmd :=
    match cmp with
    | .CEq => .Jeq
    | .CLt => .Jlt
    | .CGt => .Jgt
  let (true_lbl, lm1) := label_manager.generate_static
  let (false_lbl, lm2) := lm1.generate_static
  (pop_and_prep_stack ++ ["D=M-D"] ++
   set_alias true_lbl ++ jmp jmp_cmd .D ++
   ["D=0"] ++ set_alias false_lbl ++ jmp .Jmp .Zero ++
   label true_lbl ++ ["D=-1"] ++ label false_lbl ++
   push_d_reg_to_stack, lm2)

/-- `arithmetic` from `arithmetic.rs`. -/
def arithmetic (arr : Arithmetic) (label_manager : LabelManager) :
    List String × LabelManager :=
  match arr with
  | .Add => (bin_math_to_asm "+", label_manager)
  | .Sub => (bin_math_to_asm "-", label_manager)
  | .And => (bin_math_to_asm "&", label_manager)
  | .Or => (bin_math_to_asm "|", label_manager)
  | .Neg => (uni_math_to_asm "-", label_manager)
  | .Not => (uni_math_to_asm "!", label_manager)
  | .Eq => cmp_math_to_asm .CEq label_manager
  | .Gt => cmp_math_to_asm .CGt label_manager
  | .Lt => cmp_math_to_asm .CLt label_manager

/-- `CodeWriterError` from `writer.rs` (I/O omitted). -/
inductive CodeWriterError where
  | Temp (e : RegMgrError)
  | Memory (e : MemoryError)
  | Flow (e : FlowError)
deriving DecidableEq, Repr

/-- `CodeWriter` from `writer.rs`: output is returned as a line list instead
of written to the stream. -/
structure CodeWriter where
  label_manager : LabelManager
  gen_purp_reg : RegMgr
  mem_cmd_writer : MemCmdWriter
deriving DecidableEq, Repr

/-- `CodeWriter::new`: registers R13-R15, namespace and label scope `"asm"`. -/
def CodeWriter.new : Except CodeWriterError CodeWriter :=
  match RegMgr.new 13 15 with
  | .ok gen_purp_reg =>
    .ok
      { label_manager := LabelManager.new "asm"
        gen_purp_reg := gen_purp_reg
        mem_cmd_writer := MemCmdWriter.new "asm" }
  | .error e => .error (.Temp e)

/-- `push_constant` on the memory command writer (invoked by `writer.rs` for
`ParsedCmd::PushConstant`).  Modelled from the spec: the method body is not
in `src/` (`memory.rs` has no `push_constant`); per the spec and the
writer's test, it sets D to the constant and pushes D. -/
def push_constant (value : Int) : List String :=
  set_d_reg_to_constant value ++ push_d_reg_to_stack

/-- `set_namespace` from `writer.rs`: fresh memory writer and file-level
label scope. -/
def CodeWriter.set_namespace (cw : CodeWriter) (ns : String) : CodeWriter :=
  { cw with
    mem_cmd_writer := MemCmdWriter.new ns
    label_manager := cw.label_manager.set_filename ns }

/-- `cmd_to_asm` from `writer.rs` (lines 66-76).  `writer.rs` has no arm for
`ParsedCmd::Terminate` (the command sent once by `translator.rs`); its
emission is not described by the spec either, so it is taken as the
parameter `terminateAsm`. -/
def CodeWriter.cmd_to_asm (cw : CodeWriter) (terminateAsm : Option (List String))
    (cmd : ParsedCmd) : Except CodeWriterError (Option (List String) × CodeWriter) :=
  match cmd with
  | .Arithmetic arr =>
    let (asm, lm') := arithmetic arr cw.label_manager
    .ok (some asm, { cw with label_manager := lm' })
  | .PushConstant value => .ok (some (push_constant value), cw)
  | .Push segment idx =>
    match cw.mem_cmd_writer.push_to_stack segment idx with
    | .ok asm => .ok (some asm, cw)
    | .error e => .error (.Memory e)
  | .Pop segment idx =>
    match cw.mem_cmd_writer.pop_stack_to cw.gen_purp_reg segment idx with
    | .ok asm => .ok (some asm, cw)
    | .error e => .error (.Memory e)
  | .Flow flow_cmd =>
    match flow cw.gen_purp_reg cw.mem_cmd_writer flow_cmd cw.label_manager with
    | .ok (asm, lm') => .ok (some asm, { cw with label_manager := lm' })
    | .error e => .error (.Flow e)
  | .Marker marker_cmd =>
    let (asm, lm') := marker marker_cmd cw.label_manager
    .ok (some asm, { cw with label_manager := lm' })
  | .Terminate => .ok (terminateAsm, cw)
  | .Noop => .ok (none, cw)

/-- `write` from `writer.rs`: the `//original` comment line first, then the
lowering (if any). -/
def CodeWriter.write (cw : CodeWriter) (terminateAsm : Option (List String))
    (cmd : Command) : Except CodeWriterError (List String × CodeWriter) :=
  match cw.cmd_to_asm terminateAsm cmd.parsed with
  | .ok (asm, cw') => .ok (("//" ++ cmd.original) :: asm.getD [], cw')
  | .error e => .error e

/-- `init` from `writer.rs` (lines 42-45): emit `@256 D=A @SP M=D`, then
write the synthesized `call Sys.init 0` command. -/
def CodeWriter.init (cw : CodeWriter) (terminateAsm : Option (List String)) :
    Except CodeWriterError (List String × CodeWriter) :=
  match cw.write terminateAsm
      ⟨"call Sys.init 0", .Flow (.Call "Sys.init" 0)⟩ with
  | .ok (asm, cw') => .ok (["@256", "D=A", "@SP", "M=D"] ++ asm, cw')
  | .error e => .error e

/-- `TranslatorError` (path and I/O errors omitted). -/
inductive TranslatorError where
  | Parse (e : ParseError)
  | Writer (e : CodeWriterError)
deriving DecidableEq, Repr

/-- The command loop of `parse_file` in `translator.rs`: parse each line and
feed the command to the writer, accumulating the emitted lines. -/
def writeLines (cw : CodeWriter) (terminateAsm : Option (List String)) :
    List String → Except TranslatorError (List String × CodeWriter)
  | [] => .ok ([], cw)
  | line :: rest =>
    match parsedCmdOfString line with
    | .error e => .error (.Parse e)
    | .ok parsed =>
      match cw.write terminateAsm ⟨line, parsed⟩ with
      | .error e => .error (.Writer e)
      | .ok (out, cw') =>
        match writeLines cw' terminateAsm rest with
        | .error e => .error e
        | .ok (outRest, cw'') => .ok (out ++ outRest, cw'')

/-- `parse_file` from `translator.rs`: set the file's namespace, then write
every parsed command. -/
def parse_file (cw : CodeWriter) (terminateAsm : Option (List String))
    (name : String) (lines : List String) :
    Except TranslatorError (List String × CodeWriter) :=
  writeLines (cw.set_namespace name) terminateAsm lines

/-- The file loop of `translate`. -/
def translateFiles (cw : CodeWriter) (terminateAsm : Option (List String)) :
    List (String × List String) → Except TranslatorError (List String × CodeWriter)
  | [] => .ok ([], cw)
  | (name, lines) :: rest =>
    match parse_file cw terminateAsm name lines with
    | .error e => .error e
    | .ok (out, cw') =>
      match translateFiles cw' terminateAsm rest with
      | .error e => .error e
      | .ok (outRest, cw'') => .ok (out ++ outRest, cw'')

/-- `translate` from `translator.rs` (lines 24-52): translate every `.vm`
file (already in traversal order), then write the final `Terminate` command
with an empty original line.  `init` is never invoked. -/
def translate (files : List (String × List String))
    (terminateAsm : Option (List String)) :
    Except TranslatorError (List String) :=
  match CodeWriter.new with
  | .error e => .error (.Writer e)
  | .ok cw =>
    match translateFiles cw terminateAsm files with
    | .error e => .error e
    | .ok (out, cw') =>
      match cw'.write terminateAsm ⟨"", .Terminate⟩ with
      | .error e => .error (.Writer e)
      | .ok (outT, _) => .ok (out ++ outT)

end VM
namespace Hack

theorem containsKey_false_alookup {l : List (String × Nat)} {k : String}
    (h : containsKey l k = false) : alookup l k = none := by
  unfold containsKey at h
  cases halo : alookup l k with
  | none => rfl
  | some v => rw [halo] at h; simp [Option.isSome] at h

theorem applyOp_next (st : SymbolTable) (op : STOp) :
    (applyOp st op).next_mem_allocation = st.next_mem_allocation ∨
    (applyOp st op).next_mem_allocation = (st.next_mem_allocation + 1) % 65536 := by
  cases op with
  | addAlias n =>
    unfold applyOp SymbolTable.add_alias
    by_cases h : containsKey st.aliases n
    · simp [h]
    · simp [h]
      cases halo : alookup st.aliases n <;> simp
  | addLabel n l =>
    unfold applyOp SymbolTable.add_label
    by_cases h : containsKey st.labels n
    · simp [h]
    · simp [h]
      cases halo : alookup st.labels n <;> simp
  | getAddr n => left; rfl
  | getLineNo n => left; rfl

theorem runOps_next (ops : List STOp) :
    ∀ st : SymbolTable, st.next_mem_allocation < 65536 →
    (runOps st ops).next_mem_allocation =
      (st.next_mem_allocation + succCount st ops) % 65536 := by
  induction ops with
  | nil =>
    intro st h
    simp [runOps, succCount, Nat.mod_eq_of_lt h]
  | cons op rest ih =>
    intro st h
    have hrun : runOps st (op :: rest) = runOps (applyOp st op) rest := rfl
    rw [hrun]
    cases op with
    | addAlias n =>
      by_cases hc : containsKey st.aliases n
      · have hst : applyOp st (.addAlias n) = st := by
          unfold applyOp SymbolTable.add_alias
          simp [hc]
        rw [hst]
        have : succCount st (STOp.addAlias n :: rest) = succCount st rest := by
          simp only [succCount, hc, if_true, hst, Nat.zero_add]
        rw [this]
        exact ih st h
      · have halo : alookup st.aliases n = none :=
          containsKey_false_alookup (by simpa using hc)
        have hst : (applyOp st (.addAlias n)).next_mem_allocation =
            (st.next_mem_allocation + 1) % 65536 := by
          unfold applyOp SymbolTable.add_alias
          simp [hc, halo]
        have hsucc : succCount st (STOp.addAlias n :: rest) =
            1 + succCount (applyOp st (.addAlias n)) rest := by
          simp only [succCount, hc, if_false, Bool.false_eq_true]
        rw [hsucc]
        have h2 : (applyOp st (.addAlias n)).next_mem_allocation < 65536 := by
          rw [hst]; exact Nat.mod_lt _ (by norm_num)
        have := ih (applyOp st (.addAlias n)) h2
        rw [this, hst]
        rw [Nat.mod_add_mod]
        ring_nf
    | addLabel n l =>
      have hst : (applyOp st (.addLabel n l)).next_mem_allocation =
          st.next_mem_allocation ∧
          (applyOp st (.addLabel n l)).aliases = st.aliases := by
        unfold applyOp SymbolTable.add_label
        by_cases h2 : containsKey st.labels n
        · simp [h2]
        · simp [h2]
          cases halo : alookup st.labels n <;> simp
      have hsucc : succCount st (STOp.addLabel n l :: rest) =
          succCount (applyOp st (.addLabel n l)) rest := by
        simp only [succCount, Nat.zero_add]
      rw [hsucc]
      have := ih (applyOp st (.addLabel n l)) (by rw [hst.1]; exact h)
      rw [this, hst.1]
    | getAddr n =>
      have : succCount st (STOp.getAddr n :: rest) = succCount st rest := by
        simp only [succCount, applyOp, Nat.zero_add]
      rw [this]
      exact ih st h
    | getLineNo n =>
      have : succCount st (STOp.getLineNo n :: rest) = succCount st rest := by
        simp only [succCount, applyOp, Nat.zero_add]
      rw [this]
      exact ih st h

end Hack
/-- C5: starting from a fresh symbol table, after any operation sequence the
allocation cursor equals `0x0010 +` the number of successful `add_alias`
calls (mod 2^16); hence the i-th successful allocation (i counted from 0,
here `i = succCount` of the preceding run) returns `0x0010 + i` whenever
that value fits in a u16; and no single symbol-table operation decreases
`next_variable_addr` (short of u16 wrap-around). -/
theorem C5_alias_allocator (ops : List Hack.STOp) (n : String) :
    (Hack.runOps Hack.SymbolTable.new ops).next_mem_allocation =
      (0x10 + Hack.succCount Hack.SymbolTable.new ops) % 65536 ∧
    (Hack.containsKey (Hack.runOps Hack.SymbolTable.new ops).aliases n = false →
      0x10 + Hack.succCount Hack.SymbolTable.new ops < 65536 →
      ((Hack.runOps Hack.SymbolTable.new ops).add_alias n).1 =
        .ok (0x10 + Hack.succCount Hack.SymbolTable.new ops)) ∧
    (∀ (st : Hack.SymbolTable) (op : Hack.STOp),
      st.next_mem_allocation < 65535 →
      st.next_mem_allocation ≤ (Hack.applyOp st op).next_mem_allocation) := by
  refine ⟨?_, ?_, ?_⟩
  · exact Hack.runOps_next ops Hack.SymbolTable.new (by norm_num [Hack.SymbolTable.new, Hack.START_ALIAS_ADDRESS])
  · intro hfree hlt
    have halo := Hack.containsKey_false_alookup hfree
    have hnext := Hack.runOps_next ops Hack.SymbolTable.new (by norm_num [Hack.SymbolTable.new, Hack.START_ALIAS_ADDRESS])
    have hnew : (Hack.SymbolTable.new).next_mem_allocation = 0x10 := rfl
    rw [hnew] at hnext
    unfold Hack.SymbolTable.add_alias
    rw [hfree]
    simp only [Bool.false_eq_true, if_false, halo]
    rw [hnext, Nat.mod_eq_of_lt hlt]
  · intro st op hlt
    rcases Hack.applyOp_next st op with h | h
    · rw [h]
    · rw [h, Nat.mod_eq_of_lt (by omega)]
      omega

/-- C5 witness: after two fresh allocations the cursor is `0x0012` and the
next fresh name allocates `0x0010 + 2`. -/
theorem C5_alias_allocator_witness :
    Hack.containsKey
      (Hack.runOps Hack.SymbolTable.new [.addAlias "a", .addAlias "b"]).aliases "c" = false ∧
    ((Hack.runOps Hack.SymbolTable.new [.addAlias "a", .addAlias "b"]).add_alias "c").1 =
      .ok (0x10 + Hack.succCount Hack.SymbolTable.new [.addAlias "a", .addAlias "b"]) :=
  ⟨by decide,
   (C5_alias_allocator [.addAlias "a", .addAlias "b"] "c").2.1 (by decide) (by decide)⟩

/-- C6: `add_alias` on a name already in the alias map and `add_label` on a
name already in the label map both return `AlreadySetErr` and leave the
symbol table (both maps and the allocation cursor) unchanged. -/
theorem C6_redeclaration_error (st : Hack.SymbolTable) (n : String) (line_no : Nat) :
    (Hack.containsKey st.aliases n = true →
      st.add_alias n = (.error .AlreadySetErr, st)) ∧
    (Hack.containsKey st.labels n = true →
      st.add_label n line_no = (.error .AlreadySetErr, st)) := by
  constructor
  · intro h
    unfold Hack.SymbolTable.add_alias
    rw [h]
    simp
  · intro h
    unfold Hack.SymbolTable.add_label
    rw [h]
    simp

/-- C6 witness: redeclaring the predefined alias `SP` and redeclaring the
label `L` both fail and leave the table unchanged. -/
theorem C6_redeclaration_error_witness :
    Hack.SymbolTable.new.add_alias "SP" = (.error .AlreadySetErr, Hack.SymbolTable.new) ∧
    ((Hack.SymbolTable.new.add_label "L" 1).2.add_label "L" 2 =
      (.error .AlreadySetErr, (Hack.SymbolTable.new.add_label "L" 1).2)) :=
  ⟨(C6_redeclaration_error Hack.SymbolTable.new "SP" 0).1 (by decide),
   (C6_redeclaration_error (Hack.SymbolTable.new.add_label "L" 1).2 "L" 2).2 (by decide)⟩
/-- C1: in pass 2 (`convert_to_bin`), an `@name` alias is resolved by the
variable map (`get_addr`) first, the label map (`get_line_no`) second, and
only when the name is in neither map is a fresh variable allocated with
`add_alias` (at the current cursor) and its address emitted; in particular a
name present in both maps emits the variable address. -/
theorem C1_alias_resolution_order (st : Hack.SymbolTable) (n : String) :
    (∀ a, st.get_addr n = some a →
      Hack.convert_to_bin st [.AInstruction (.Alias n)] = .ok [Hack.bin_string a]) ∧
    (st.get_addr n = none → ∀ b, st.get_line_no n = some b →
      Hack.convert_to_bin st [.AInstruction (.Alias n)] = .ok [Hack.bin_string b]) ∧
    (st.get_addr n = none → st.get_line_no n = none →
      Hack.convert_to_bin st [.AInstruction (.Alias n)] =
        .ok [Hack.bin_string st.next_mem_allocation] ∧
      (st.add_alias n).1 = .ok st.next_mem_allocation) := by
  refine ⟨?_, ?_, ?_⟩
  · intro a ha
    simp [Hack.convert_to_bin, Hack.convertTokenStep, ha, Bind.bind, Except.bind]
  · intro ha b hb
    simp [Hack.convert_to_bin, Hack.convertTokenStep, ha, hb, Bind.bind, Except.bind]
  · intro ha hb
    have hc : Hack.containsKey st.aliases n = false := by
      unfold Hack.containsKey
      rw [show Hack.alookup st.aliases n = none from ha]
      rfl
    have hadd : st.add_alias n = (.ok st.next_mem_allocation,
        { st with
          aliases := Hack.ainsert st.aliases n st.next_mem_allocation
          next_mem_allocation := (st.next_mem_allocation + 1) % 65536 }) := by
      unfold Hack.SymbolTable.add_alias
      rw [hc]
      simp only [Bool.false_eq_true, if_false]
      rw [show Hack.alookup st.aliases n = none from ha]
    constructor
    · simp [Hack.convert_to_bin, Hack.convertTokenStep, ha, hb, hadd, Bind.bind, Except.bind]
    · rw [hadd]

/-- C1 witness: with `x` allocated as a variable at `0x0010` and also
declared as a label at line 5, `@x` emits the variable address `0x0010`. -/
theorem C1_alias_resolution_order_witness :
    ((((Hack.SymbolTable.new.add_alias "x").2.add_label "x" 5).2).get_addr "x" = some 16) ∧
    ((((Hack.SymbolTable.new.add_alias "x").2.add_label "x" 5).2).get_line_no "x" = some 5) ∧
    Hack.convert_to_bin (((Hack.SymbolTable.new.add_alias "x").2.add_label "x" 5).2)
      [.AInstruction (.Alias "x")] = .ok [Hack.bin_string 16] :=
  ⟨by decide, by decide,
   (C1_alias_resolution_order (((Hack.SymbolTable.new.add_alias "x").2.add_label "x" 5).2) "x").1
     16 (by decide)⟩
namespace Hack

theorem destCombine_some_zero (b : Option Nat) :
    SymbolTable.destCombine (some 0) b = b := by
  cases b with
  | none => rfl
  | some x => simp [SymbolTable.destCombine, Nat.zero_or]

theorem destCombine_right_comm (z x y : Option Nat) :
    SymbolTable.destCombine (SymbolTable.destCombine z x) y =
    SymbolTable.destCombine (SymbolTable.destCombine z y) x := by
  cases z <;> cases x <;> cases y <;> try rfl
  rename_i a b c
  show some ((a ||| b) ||| c) = some ((a ||| c) ||| b)
  rw [Nat.lor_assoc, Nat.lor_assoc, Nat.lor_comm b c]

theorem foldl_destCombine_none (l : List (Option Nat)) :
    l.foldl SymbolTable.destCombine none = none := by
  induction l with
  | nil => rfl
  | cons b rest ih =>
    have h : SymbolTable.destCombine none b = none := by cases b <;> rfl
    rw [List.foldl_cons, h, ih]

theorem foldl_destCombine_mem_none (l : List (Option Nat)) (b : Option Nat)
    (h : none ∈ l) : l.foldl SymbolTable.destCombine b = none := by
  induction l generalizing b with
  | nil => cases h
  | cons x rest ih =>
    rw [List.foldl_cons]
    rcases List.mem_cons.mp h with h1 | h2
    · have hb : SymbolTable.destCombine b x = none := by
        rw [← h1]; cases b <;> rfl
      rw [hb, foldl_destCombine_none]
    · exact ih _ h2

theorem get_dest_instr_eq_foldl (s : String) :
    SymbolTable.get_dest_instr s =
      if s.data = [] then none
      else (s.data.map SymbolTable.destBit).foldl SymbolTable.destCombine (some 0) := by
  unfold SymbolTable.get_dest_instr
  cases h : s.data with
  | nil => simp
  | cons c cs =>
    simp only [List.map, if_neg (List.cons_ne_nil c cs)]
    rw [List.foldl_cons, destCombine_some_zero]

theorem destBit_eq_none {c : Char} (hA : c ≠ 'A') (hD : c ≠ 'D') (hM : c ≠ 'M') :
    SymbolTable.destBit c = none := by
  have h1 : ¬ (("M" : String) = ⟨[c]⟩) := by
    intro h
    apply hM
    have h2 : ("M" : String).data = [c] := by rw [h]
    have h3 : ("M" : String).data = ['M'] := rfl
    rw [h3] at h2
    simpa using h2.symm
  have h4 : ¬ (("D" : String) = ⟨[c]⟩) := by
    intro h
    apply hD
    have h2 : ("D" : String).data = [c] := by rw [h]
    have h3 : ("D" : String).data = ['D'] := rfl
    rw [h3] at h2
    simpa using h2.symm
  have h5 : ¬ (("A" : String) = ⟨[c]⟩) := by
    intro h
    apply hA
    have h2 : ("A" : String).data = [c] := by rw [h]
    have h3 : ("A" : String).data = ['A'] := rfl
    rw [h3] at h2
    simpa using h2.symm
  unfold SymbolTable.destBit DEST_INSTR alookup
  rw [if_neg h1]
  unfold alookup
  rw [if_neg h4]
  unfold alookup
  rw [if_neg h5]
  rfl

end Hack

/-- C8: `get_dest_instr` is invariant under permutation of the destination
string's characters; and it returns `none` whenever any character of the
string is outside `{A, D, M}`. -/
theorem C8_dest_mask_permutation (s t : String) (c : Char)
    (hperm : s.data.Perm t.data) :
    Hack.SymbolTable.get_dest_instr s = Hack.SymbolTable.get_dest_instr t ∧
    (c ∈ s.data → c ≠ 'A' → c ≠ 'D' → c ≠ 'M' →
      Hack.SymbolTable.get_dest_instr s = none) := by
  constructor
  · rw [Hack.get_dest_instr_eq_foldl, Hack.get_dest_instr_eq_foldl]
    by_cases hs : s.data = []
    · have ht : t.data = [] := (hs ▸ hperm).symm.eq_nil
      rw [if_pos hs, if_pos ht]
    · have ht : ¬ t.data = [] := fun h => hs (h ▸ hperm).eq_nil
      rw [if_neg hs, if_neg ht]
      exact (hperm.map Hack.SymbolTable.destBit).foldl_eq'
        (fun x _ y _ z => Hack.destCombine_right_comm z x y) (some 0)
  · intro hc hA hD hM
    rw [Hack.get_dest_instr_eq_foldl]
    have hs : ¬ s.data = [] := by
      intro h
      rw [h] at hc
      cases hc
    rw [if_neg hs]
    apply Hack.foldl_destCombine_mem_none
    have : Hack.SymbolTable.destBit c = none := Hack.destBit_eq_none hA hD hM
    rw [← this]
    exact List.mem_map_of_mem _ hc

/-- C8 witness: `ADM` and `MDA` encode to the same mask, and a string
containing `X` encodes to `none`. -/
theorem C8_dest_mask_permutation_witness :
    Hack.SymbolTable.get_dest_instr "ADM" = Hack.SymbolTable.get_dest_instr "MDA" ∧
    Hack.SymbolTable.get_dest_instr "AXD" = none :=
  ⟨(C8_dest_mask_permutation "ADM" "MDA" 'A' (by decide)).1,
   (C8_dest_mask_permutation "AXD" "AXD" 'X' (by decide)).2 (by decide)
     (by decide) (by decide) (by decide)⟩
namespace Hack

theorem parseU16Digits_lt (cs : List Char) :
    ∀ (acc v : Nat), acc < 65536 → parseU16Digits cs acc = some v → v < 65536 := by
  induction cs with
  | nil =>
    intro acc v hacc h
    simp [parseU16Digits] at h
    omega
  | cons c rest ih =>
    intro acc v hacc h
    unfold parseU16Digits at h
    by_cases hd : c.isDigit
    · rw [if_pos hd] at h
      by_cases hlt : acc * 10 + (c.toNat - 48) < 65536
      · rw [if_pos hlt] at h
        exact ih _ v hlt h
      · rw [if_neg hlt] at h
        cases h
    · rw [if_neg hd] at h
      cases h

theorem parseU16_lt (s : String) (v : Nat) (h : parseU16 s = some v) : v < 65536 := by
  unfold parseU16 at h
  set cs := match s.data with
    | '+' :: rest => rest
    | cs => cs with hcs
  cases hc : cs with
  | nil => rw [hc] at h; cases h
  | cons a rest =>
    rw [hc] at h
    exact parseU16Digits_lt (a :: rest) 0 v (by norm_num) h

theorem bin_string_aux_append (n : Nat) :
    ∀ (val : Nat) (acc : List Char),
      bin_string_aux val n acc = bin_string_aux val n [] ++ acc := by
  induction n with
  | zero => intro val acc; rfl
  | succ n ih =>
    intro val acc
    show bin_string_aux (val / 2) n ((if val % 2 = 0 then '0' else '1') :: acc) =
      bin_string_aux (val / 2) n [(if val % 2 = 0 then '0' else '1')] ++ acc
    rw [ih (val / 2) ((if val % 2 = 0 then '0' else '1') :: acc),
        ih (val / 2) [(if val % 2 = 0 then '0' else '1')]]
    simp

theorem bin_string_aux_head (n : Nat) :
    ∀ (val : Nat),
      (bin_string_aux val (n + 1) []).head? =
        some (if val / 2 ^ n % 2 = 0 then '0' else '1') := by
  induction n with
  | zero =>
    intro val
    show ((if val % 2 = 0 then '0' else '1') :: []).head? = _
    simp
  | succ n ih =>
    intro val
    show (bin_string_aux (val / 2) (n + 1) [(if val % 2 = 0 then '0' else '1')]).head? = _
    rw [bin_string_aux_append (n + 1) (val / 2)]
    rw [List.head?_append]
    rw [ih (val / 2)]
    have : val / 2 / 2 ^ n = val / 2 ^ (n + 1) := by
      rw [Nat.div_div_eq_div_mul]
      congr 1
      rw [pow_succ, mul_comm]
    rw [this]
    rfl

theorem bin_string_head (v : Nat) (hv : v < 65536) :
    ((bin_string v).data.head? = some '0') ↔ v < 32768 := by
  show ((bin_string_aux v 16 []).head? = some '0') ↔ v < 32768
  rw [show (16 : Nat) = 15 + 1 from rfl, bin_string_aux_head 15 v]
  have hpow : (2 : Nat) ^ 15 = 32768 := by norm_num
  rw [hpow]
  by_cases h : v < 32768
  · have h0 : v / 32768 = 0 := Nat.div_eq_of_lt h
    simp [h0, h]
  · have h1 : v / 32768 = 1 := by omega
    simp [h1, h]

end Hack

/-- C3 counterexample: the line `@40000` tokenizes to `RawAddr 40000` even
though 40000 is not a 15-bit value, and its emitted 16-bit encoding has
most-significant bit 1. -/
theorem C3_counterexample :
    Hack.extract_a_instruction "@40000" 1 =
      .ok (some (.AInstruction (.RawAddr 40000))) ∧
    ¬ (40000 ≤ 32767) ∧
    (Hack.bin_string 40000).data.head? = some '1' := by
  refine ⟨by decide, by decide, by decide⟩

/-- C3 amended: for a line `@remainder`, the tokenizer emits `RawAddr`
exactly when the remainder parses as an unsigned 16-bit integer (so the
payload is bounded by 65535, not 32767); the emitted 16-bit encoding has
most-significant bit 0 exactly when the payload is below 2^15. -/
theorem C3_a_instruction_range (s : String) (v : Nat) :
    (Hack.extract_a_instruction ("@" ++ s) 1 =
        .ok (some (.AInstruction (.RawAddr v))) ↔ Hack.parseU16 s = some v) ∧
    (Hack.parseU16 s = some v → v ≤ 65535) ∧
    (v ≤ 65535 → (((Hack.bin_string v).data.head? = some '0') ↔ v < 32768)) := by
  refine ⟨?_, ?_, ?_⟩
  · have hrem : (⟨("@" ++ s).data.drop 1⟩ : String) = s := rfl
    unfold Hack.extract_a_instruction
    rw [hrem]
    cases hp : Hack.parseU16 s with
    | some a => simp only [hp]; simp
    | none =>
      simp only [hp]
      constructor
      · intro h
        exfalso
        split at h
        · simp at h
        · split at h
          · simp at h
          · cases hfind : List.find? (fun c => !Hack.is_valid_symbol c) s.data with
            | some c => rw [hfind] at h; simp at h
            | none => rw [hfind] at h; simp at h
      · intro h; cases h
  · intro h
    have := Hack.parseU16_lt s v h
    omega
  · intro hv
    exact Hack.bin_string_head v (by omega)

/-- C3 witness: `40000` parses as a u16, and its encoding's MSB is not 0. -/
theorem C3_a_instruction_range_witness :
    (Hack.extract_a_instruction ("@" ++ "40000") 1 =
        .ok (some (.AInstruction (.RawAddr 40000)))) ∧
    (40000 : Nat) ≤ 65535 ∧
    ¬ ((Hack.bin_string 40000).data.head? = some '0') :=
  ⟨(C3_a_instruction_range "40000" 40000).1.mpr (by decide),
   (C3_a_instruction_range "40000" 40000).2.1 (by decide),
   fun h => by
     have := ((C3_a_instruction_range "40000" 40000).2.2 (by decide)).mp h
     omega⟩
/-- C4 counterexample: `push constant -1` is rejected with
`InvalidMemoryLocation` (the index of `constant` is parsed as an unsigned
16-bit integer like every other segment index), while `push constant 5` is
accepted. -/
theorem C4_counterexample :
    VM.parsedCmdOfString "push constant -1" = .error .InvalidMemoryLocation ∧
    VM.parsedCmdOfString "push constant 5" = .ok (.Push .Constant 5) := by
  exact ⟨by decide, by decide⟩

/-- C4 amended: for every recognized push/pop segment — including
`constant` — the index is parsed with the same unsigned 16-bit parser, and a
non-parsable index (any negative number in particular) raises
`InvalidMemoryLocation`. -/
theorem C4_index_parsing (segName loc : String) (v : Nat) :
    (∀ seg, VM.STR_PUSH_SEGMENT segName = some seg →
      (VM.parsedCmdOfTokens ["push", segName, loc] = .ok (.Push seg v) ↔
        Hack.parseU16 loc = some v)) ∧
    (∀ seg, VM.STR_POP_SEGMENT segName = some seg →
      (VM.parsedCmdOfTokens ["pop", segName, loc] = .ok (.Pop seg v) ↔
        Hack.parseU16 loc = some v)) ∧
    (Hack.parseU16 loc = none →
      VM.parsedCmdOfTokens ["push", segName, loc] = .error .InvalidMemoryLocation ∧
      VM.parsedCmdOfTokens ["pop", segName, loc] = .error .InvalidMemoryLocation) := by
  refine ⟨?_, ?_, ?_⟩
  · intro seg hseg
    simp only [VM.parsedCmdOfTokens]
    cases hp : Hack.parseU16 loc with
    | some a => simp [hseg, hp]
    | none => simp [hseg, hp]
  · intro seg hseg
    simp only [VM.parsedCmdOfTokens]
    cases hp : Hack.parseU16 loc with
    | some a => simp [hseg, hp]
    | none => simp [hseg, hp]
  · intro hp
    constructor <;> · simp only [VM.parsedCmdOfTokens]; simp [hp]

/-- C4 witness: `constant` is looked up in the push-segment table and `5`
parses, `-1` does not. -/
theorem C4_index_parsing_witness :
    (VM.parsedCmdOfTokens ["push", "constant", "5"] = .ok (.Push .Constant 5) ↔
      Hack.parseU16 "5" = some 5) ∧
    (VM.parsedCmdOfTokens ["push", "constant", "-1"] = .error .InvalidMemoryLocation ∧
     VM.parsedCmdOfTokens ["pop", "constant", "-1"] = .error .InvalidMemoryLocation) :=
  ⟨(C4_index_parsing "constant" "5" 5).1 .Constant (by decide),
   (C4_index_parsing "constant" "-1" 5).2.2 (by decide)⟩
/-- C7: lowering `push`/`pop` for `Temp` succeeds exactly for indices in
`[0, 7]` and addresses RAM location `5 + i` directly; for `Pointer` it
succeeds exactly for indices in `{0, 1}`, 0 mapping to `THIS` and 1 to
`THAT`; any other index yields an out-of-bounds memory error and no assembly
(for `pop`, under a register state with a free scratch register, since one
is leased at entry). -/
theorem C7_temp_pointer_bounds (w : VM.MemCmdWriter) (regs : VM.RegMgr)
    (idx : Nat) (hfree : VM.leaseFirst regs.registers ≠ none) :
    ((∃ asm, w.push_to_stack .Temp idx = .ok asm) ↔ idx ≤ 7) ∧
    (idx ≤ 7 → w.push_to_stack .Temp idx =
      .ok (["@" ++ toString (5 + idx), "D=M"] ++ VM.push_d_reg_to_stack)) ∧
    (¬ idx ≤ 7 → w.push_to_stack .Temp idx =
      .error (.OutOfBoundsPushError idx .Temp)) ∧
    ((∃ asm, w.pop_stack_to regs .Temp idx = .ok asm) ↔ idx ≤ 7) ∧
    (idx ≤ 7 → w.pop_stack_to regs .Temp idx =
      .ok (VM.pop_stack_to_d_reg ++ ["@" ++ toString (5 + idx), "M=D"])) ∧
    (¬ idx ≤ 7 → w.pop_stack_to regs .Temp idx =
      .error (.OutOfBoundsPopError idx .Temp)) ∧
    ((∃ asm, w.push_to_stack .Pointer idx = .ok asm) ↔ idx ≤ 1) ∧
    (idx = 0 → w.push_to_stack .Pointer idx =
      .ok (["@THIS", "D=M"] ++ VM.push_d_reg_to_stack)) ∧
    (idx = 1 → w.push_to_stack .Pointer idx =
      .ok (["@THAT", "D=M"] ++ VM.push_d_reg_to_stack)) ∧
    (¬ idx ≤ 1 → w.push_to_stack .Pointer idx =
      .error (.OutOfBoundsPushError idx .Pointer)) ∧
    ((∃ asm, w.pop_stack_to regs .Pointer idx = .ok asm) ↔ idx ≤ 1) ∧
    (idx = 0 → w.pop_stack_to regs .Pointer idx =
      .ok (VM.pop_stack_to_d_reg ++ ["@THIS", "M=D"])) ∧
    (idx = 1 → w.pop_stack_to regs .Pointer idx =
      .ok (VM.pop_stack_to_d_reg ++ ["@THAT", "M=D"])) ∧
    (¬ idx ≤ 1 → w.pop_stack_to regs .Pointer idx =
      .error (.OutOfBoundsPopError idx .Pointer)) := by
  obtain ⟨p, hp⟩ : ∃ p, VM.leaseFirst regs.registers = some p :=
    Option.ne_none_iff_exists'.mp hfree
  have hnext : regs.next = .ok (p.1, ⟨p.2⟩) := by
    unfold VM.RegMgr.next
    rw [hp]
  have hb : VM.AVAILABLE_TMP_BLOCKS - 1 = 7 := rfl
  have hpushT_ok : idx ≤ 7 → w.push_to_stack .Temp idx =
      .ok (["@" ++ toString (5 + idx), "D=M"] ++ VM.push_d_reg_to_stack) := by
    intro hle
    simp only [VM.MemCmdWriter.push_to_stack]
    rw [if_neg (by omega)]
    rfl
  have hpushT_err : ¬ idx ≤ 7 → w.push_to_stack .Temp idx =
      .error (.OutOfBoundsPushError idx .Temp) := by
    intro hgt
    simp only [VM.MemCmdWriter.push_to_stack]
    rw [if_pos (by omega)]
    rfl
  have hpopT_ok : idx ≤ 7 → w.pop_stack_to regs .Temp idx =
      .ok (VM.pop_stack_to_d_reg ++ ["@" ++ toString (5 + idx), "M=D"]) := by
    intro hle
    simp only [VM.MemCmdWriter.pop_stack_to, hnext]
    show (if idx > VM.AVAILABLE_TMP_BLOCKS - 1 then _ else _) = _
    rw [if_neg (by omega)]
    rfl
  have hpopT_err : ¬ idx ≤ 7 → w.pop_stack_to regs .Temp idx =
      .error (.OutOfBoundsPopError idx .Temp) := by
    intro hgt
    simp only [VM.MemCmdWriter.pop_stack_to, hnext]
    show (if idx > VM.AVAILABLE_TMP_BLOCKS - 1 then _ else _) = _
    rw [if_pos (by omega)]
  have hpushP0 : idx = 0 → w.push_to_stack .Pointer idx =
      .ok (["@THIS", "D=M"] ++ VM.push_d_reg_to_stack) := by
    intro h0
    subst h0
    rfl
  have hpushP1 : idx = 1 → w.push_to_stack .Pointer idx =
      .ok (["@THAT", "D=M"] ++ VM.push_d_reg_to_stack) := by
    intro h1
    subst h1
    rfl
  have hpushP_err : ¬ idx ≤ 1 → w.push_to_stack .Pointer idx =
      .error (.OutOfBoundsPushError idx .Pointer) := by
    intro hgt
    simp only [VM.MemCmdWriter.push_to_stack]
    rw [if_pos (by omega)]
    rfl
  have hpopP0 : idx = 0 → w.pop_stack_to regs .Pointer idx =
      .ok (VM.pop_stack_to_d_reg ++ ["@THIS", "M=D"]) := by
    intro h0
    subst h0
    simp only [VM.MemCmdWriter.pop_stack_to, hnext]
    rfl
  have hpopP1 : idx = 1 → w.pop_stack_to regs .Pointer idx =
      .ok (VM.pop_stack_to_d_reg ++ ["@THAT", "M=D"]) := by
    intro h1
    subst h1
    simp only [VM.MemCmdWriter.pop_stack_to, hnext]
    rfl
  have hpopP_err : ¬ idx ≤ 1 → w.pop_stack_to regs .Pointer idx =
      .error (.OutOfBoundsPopError idx .Pointer) := by
    intro hgt
    simp only [VM.MemCmdWriter.pop_stack_to, hnext]
    show (if idx > 1 then _ else _) = _
    rw [if_pos (by omega)]
  refine ⟨?_, hpushT_ok, hpushT_err, ?_, hpopT_ok, hpopT_err, ?_,
          hpushP0, hpushP1, hpushP_err, ?_, hpopP0, hpopP1, hpopP_err⟩
  · constructor
    · rintro ⟨asm, hasm⟩
      by_contra hgt
      rw [hpushT_err hgt] at hasm
      cases hasm
    · intro hle
      exact ⟨_, hpushT_ok hle⟩
  · constructor
    · rintro ⟨asm, hasm⟩
      by_contra hgt
      rw [hpopT_err hgt] at hasm
      cases hasm
    · intro hle
      exact ⟨_, hpopT_ok hle⟩
  · constructor
    · rintro ⟨asm, hasm⟩
      by_contra hgt
      rw [hpushP_err hgt] at hasm
      cases hasm
    · intro hle
      rcases Nat.le_one_iff_eq_zero_or_eq_one.mp hle with h0 | h1
      · exact ⟨_, hpushP0 h0⟩
      · exact ⟨_, hpushP1 h1⟩
  · constructor
    · rintro ⟨asm, hasm⟩
      by_contra hgt
      rw [hpopP_err hgt] at hasm
      cases hasm
    · intro hle
      rcases Nat.le_one_iff_eq_zero_or_eq_one.mp hle with h0 | h1
      · exact ⟨_, hpopP0 h0⟩
      · exact ⟨_, hpopP1 h1⟩

/-- C7 witness: with the writer's fresh R13-R15 register bank, `pop temp 8`
and `pop pointer 2` are out of bounds while `pop temp 3` succeeds,
addressing `@8`. -/
theorem C7_temp_pointer_bounds_witness :
    ((VM.MemCmdWriter.new "f").pop_stack_to ⟨[("R13", 1), ("R14", 1), ("R15", 1)]⟩
        .Temp 8 = .error (.OutOfBoundsPopError 8 .Temp)) ∧
    ((VM.MemCmdWriter.new "f").pop_stack_to ⟨[("R13", 1), ("R14", 1), ("R15", 1)]⟩
        .Pointer 2 = .error (.OutOfBoundsPopError 2 .Pointer)) ∧
    ((VM.MemCmdWriter.new "f").pop_stack_to ⟨[("R13", 1), ("R14", 1), ("R15", 1)]⟩
        .Temp 3 = .ok (VM.pop_stack_to_d_reg ++ ["@" ++ toString (5 + 3), "M=D"])) :=
  ⟨(C7_temp_pointer_bounds (VM.MemCmdWriter.new "f") ⟨[("R13", 1), ("R14", 1), ("R15", 1)]⟩
      8 (by decide)).2.2.2.2.2.1 (by decide),
   (C7_temp_pointer_bounds (VM.MemCmdWriter.new "f") ⟨[("R13", 1), ("R14", 1), ("R15", 1)]⟩
      2 (by decide)).2.2.2.2.2.2.2.2.2.2.2.2.2 (by decide),
   (C7_temp_pointer_bounds (VM.MemCmdWriter.new "f") ⟨[("R13", 1), ("R14", 1), ("R15", 1)]⟩
      3 (by decide)).2.2.2.2.1 (by decide)⟩
namespace VM

theorem leaseFirst_none (l : List (String × Nat))
    (h : ∀ r ∈ l, 2 ≤ r.2) : leaseFirst l = none := by
  induction l with
  | nil => rfl
  | cons r rest ih =>
    unfold leaseFirst
    rw [if_neg (by have := h r (List.mem_cons_self r rest); omega)]
    rw [ih (fun x hx => h x (List.mem_cons_of_mem r hx))]
    rfl

end VM

/-- C10: `pop_stack_to` leases a scratch register at entry for every segment
and index, so when every register is already leased (strong count ≥ 2) every
pop — including `Static`, `Temp` and `Pointer` pops whose emitted assembly
never uses the scratch register — fails with `NoFreeTmpSpace`. -/
theorem C10_pop_always_leases (w : VM.MemCmdWriter) (regs : VM.RegMgr)
    (segment : VM.PopSegment) (idx : Nat)
    (hall : ∀ r ∈ regs.registers, 2 ≤ r.2) :
    w.pop_stack_to regs segment idx = .error (.TempError .NoFreeTmpSpace) := by
  have hnone : VM.leaseFirst regs.registers = none :=
    VM.leaseFirst_none regs.registers hall
  have hnext : regs.next = .error .NoFreeTmpSpace := by
    unfold VM.RegMgr.next
    rw [hnone]
  simp only [VM.MemCmdWriter.pop_stack_to, hnext]
  rfl

/-- C10 witness: with R13-R15 all leased, even `pop static 3` (whose
assembly would not use the scratch register) fails with `NoFreeTmpSpace`. -/
theorem C10_pop_always_leases_witness :
    (VM.MemCmdWriter.new "f").pop_stack_to ⟨[("R13", 2), ("R14", 2), ("R15", 2)]⟩
      .Static 3 = .error (.TempError .NoFreeTmpSpace) :=
  C10_pop_always_leases (VM.MemCmdWriter.new "f")
    ⟨[("R13", 2), ("R14", 2), ("R15", 2)]⟩ .Static 3 (by decide)

/-- C9 counterexample: with the writer's initial label manager (scope prefix
`ASM`), the VM command `label test` is emitted as the raw `(test)` — not
`(ASM.test)` — and `goto test` as `@test; 0;JMP` — not `@ASM.test`. -/
theorem C9_counterexample :
    (VM.marker (.Label "test") (VM.LabelManager.new "asm")).1 = ["(test)"] ∧
    VM.goto "test" = ["@test", "0;JMP"] ∧
    ((VM.LabelManager.new "asm").generators.head?.map (fun g => g.pfx) = some "ASM") ∧
    (["(test)"] : List String) ≠ ["(ASM.test)"] ∧
    (["@test", "0;JMP"] : List String) ≠ ["@ASM.test", "0;JMP"] := by
  refine ⟨by decide, by decide, by decide, by decide, by decide⟩

/-- C9 amended: `label L` is emitted as `(L)` and `goto L` as `@L; 0;JMP`,
using the raw label name; no function-scope prefix is applied and the label
manager is left untouched. -/
theorem C9_label_goto_raw (l : String) (lm : VM.LabelManager)
    (regs : VM.RegMgr) (w : VM.MemCmdWriter) :
    VM.marker (.Label l) lm = (["(" ++ l ++ ")"], lm) ∧
    VM.goto l = ["@" ++ l, "0;JMP"] ∧
    VM.flow regs w (.Goto .Direct l) lm = .ok (["@" ++ l, "0;JMP"], lm) := by
  refine ⟨rfl, rfl, rfl⟩
namespace VM

theorem write_head (cw : CodeWriter) (ta : Option (List String)) (cmd : Command)
    (out : List String) (cw' : CodeWriter)
    (h : cw.write ta cmd = .ok (out, cw')) :
    out = ("//" ++ cmd.original) :: (match cw.cmd_to_asm ta cmd.parsed with
      | .ok (asm, _) => asm.getD []
      | .error _ => []) := by
  unfold CodeWriter.write at h
  cases hc : cw.cmd_to_asm ta cmd.parsed with
  | ok p =>
    obtain ⟨asm, cw2⟩ := p
    simp only [hc] at h
    cases h
    rfl
  | error e =>
    simp only [hc] at h
    cases h

theorem head_append_comment (out1 out2 : List String)
    (h1 : ∀ s, out1.head? = some s → ∃ t, s = "//" ++ t)
    (h2 : ∀ s, out2.head? = some s → ∃ t, s = "//" ++ t) :
    ∀ s, (out1 ++ out2).head? = some s → ∃ t, s = "//" ++ t := by
  intro s hs
  cases out1 with
  | nil => exact h2 s (by simpa using hs)
  | cons a rest => exact h1 s (by simpa using hs)

theorem writeLines_head (lines : List String) :
    ∀ (cw : CodeWriter) (ta : Option (List String)) (out : List String)
      (cw' : CodeWriter), writeLines cw ta lines = .ok (out, cw') →
      ∀ s, out.head? = some s → ∃ t, s = "//" ++ t := by
  induction lines with
  | nil =>
    intro cw ta out cw' h s hs
    unfold writeLines at h
    cases h
    cases hs
  | cons line rest ih =>
    intro cw ta out cw' h s hs
    unfold writeLines at h
    cases hp : parsedCmdOfString line with
    | error e => simp only [hp] at h; cases h
    | ok parsed =>
      simp only [hp] at h
      cases hw : cw.write ta ⟨line, parsed⟩ with
      | error e => simp only [hw] at h; cases h
      | ok p =>
        obtain ⟨out1, cw1⟩ := p
        simp only [hw] at h
        cases hr : writeLines cw1 ta rest with
        | error e => simp only [hr] at h; cases h
        | ok q =>
          obtain ⟨outRest, cw2⟩ := q
          simp only [hr] at h
          cases h
          refine head_append_comment out1 outRest ?_
            (ih cw1 ta outRest _ hr) s hs
          intro s1 hs1
          rw [write_head cw ta ⟨line, parsed⟩ out1 cw1 hw] at hs1
          simp at hs1
          exact ⟨line, hs1.symm⟩

theorem translateFiles_head (files : List (String × List String)) :
    ∀ (cw : CodeWriter) (ta : Option (List String)) (out : List String)
      (cw' : CodeWriter), translateFiles cw ta files = .ok (out, cw') →
      ∀ s, out.head? = some s → ∃ t, s = "//" ++ t := by
  induction files with
  | nil =>
    intro cw ta out cw' h s hs
    unfold translateFiles at h
    cases h
    cases hs
  | cons f rest ih =>
    intro cw ta out cw' h s hs
    unfold translateFiles at h
    cases hf : parse_file cw ta f.1 f.2 with
    | error e => simp only [hf] at h; cases h
    | ok p =>
      obtain ⟨out1, cw1⟩ := p
      simp only [hf] at h
      cases hr : translateFiles cw1 ta rest with
      | error e => simp only [hr] at h; cases h
      | ok q =>
        obtain ⟨outRest, cw2⟩ := q
        simp only [hr] at h
        cases h
        refine head_append_comment out1 outRest ?_
          (ih cw1 ta outRest _ hr) s hs
        exact writeLines_head f.2 (cw.set_namespace f.1) ta out1 cw1 hf

end VM

/-- C2 counterexample: a translation job's output does not begin with the
bootstrap; for the single-file job `f.vm = push constant 5` the output
starts with the source-echo comment `//push constant 5`, not with `@256`. -/
theorem C2_counterexample :
    VM.translate [("f", ["push constant 5"])] none =
      .ok ["//push constant 5", "@5", "D=A", "@SP", "A=M", "M=D", "@SP", "M=M+1", "//"] ∧
    (["//push constant 5", "@5", "D=A", "@SP", "A=M", "M=D", "@SP", "M=M+1", "//"].take 4 ≠
      ["@256", "D=A", "@SP", "M=D"]) := by
  exact ⟨by decide, by decide⟩

/-- C2 amended: `CodeWriter::init`, when invoked, emits exactly the
bootstrap `@256 D=A @SP M=D` followed by the written (comment plus lowering)
synthesized `call Sys.init 0`; but `translate` never invokes `init`, so
every successful translation job's output is nonempty and begins with a
`//` comment line rather than the bootstrap. -/
theorem C2_bootstrap :
    (∀ (ta : Option (List String)) (cw : VM.CodeWriter),
      cw.init ta = .ok (["@256", "D=A", "@SP", "M=D"] ++ ["//call Sys.init 0"] ++
          (VM.call "Sys.init" 0 cw.label_manager).1,
        { cw with label_manager := (VM.call "Sys.init" 0 cw.label_manager).2 })) ∧
    (∀ (ta : Option (List String)) (files : List (String × List String))
        (out : List String), VM.translate files ta = .ok out →
      out ≠ [] ∧ ∀ s, out.head? = some s → ∃ t, s = "//" ++ t) := by
  constructor
  · intro ta cw
    rfl
  · intro ta files out h
    unfold VM.translate at h
    cases hn : VM.CodeWriter.new with
    | error e => simp only [hn] at h; cases h
    | ok cw =>
      simp only [hn] at h
      cases hf : VM.translateFiles cw ta files with
      | error e => simp only [hf] at h; cases h
      | ok p =>
        obtain ⟨outF, cwF⟩ := p
        simp only [hf] at h
        cases hw : cwF.write ta ⟨"", .Terminate⟩ with
        | error e => simp only [hw] at h; cases h
        | ok q =>
          obtain ⟨outT, cwT⟩ := q
          simp only [hw] at h
          cases h
          have hterm := VM.write_head cwF ta ⟨"", .Terminate⟩ outT cwT hw
          constructor
          · intro hemp
            rcases List.append_eq_nil.mp hemp with ⟨-, h2⟩
            rw [hterm] at h2
            cases h2
          · refine VM.head_append_comment outF outT
              (VM.translateFiles_head files cw ta outF cwF hf) ?_
            intro s hs
            rw [hterm] at hs
            simp at hs
            exact ⟨"", by simpa using hs.symm⟩

/-- C2 witness: the head-comment property at the concrete single-file job. -/
theorem C2_bootstrap_witness :
    (["//push constant 5", "@5", "D=A", "@SP", "A=M", "M=D", "@SP", "M=M+1", "//"] :
      List String) ≠ [] ∧
    ∀ s, (["//push constant 5", "@5", "D=A", "@SP", "A=M", "M=D", "@SP", "M=M+1",
      "//"] : List String).head? = some s → ∃ t, s = "//" ++ t :=
  C2_bootstrap.2 none [("f", ["push constant 5"])]
    ["//push constant 5", "@5", "D=A", "@SP", "A=M", "M=D", "@SP", "M=M+1", "//"]
    (by decide)
